import Mathlib

/-!
Shallow embedding of the tress feed-sync core (`src/main.rs`) and its storage
schema (`migration/src/*.rs`).

Modelling conventions:
* Uuids and auto-increment keys are modelled as `Nat`; fresh post ids are
  drawn from a counter in the store (the source calls `Uuid::new_v4()` before
  each insert attempt).
* Timestamps are modelled as their RFC 3339 string renderings, so
  `DateTime::to_rfc3339` is the identity at this level of abstraction.
* Effectful collaborators (the HTTP client, the HTML scraper, `chrono`
  parsing, the push service) are abstracted into an `Env` record of pure
  functions; `Option`/`Except` results model their failure modes.
* A `.unwrap()` on an `Err`/`None` in the Rust source is modelled as a
  `Panic` value that aborts the rest of the worker run, mirroring how a
  panic terminates the spawned worker task.
* Observable actions of the worker (inserts, skips, thumbnail updates, push
  sends, deletions) are recorded in an `Event` trace in program order.
-/

namespace Tress

/-- A row of the `posts` table (`migration/src/m20220101_000001_create_table.rs`):
`id` (pk), `feed_id` (fk to feeds), `url` (unique), `title`, `publish_time`,
optional `description`, `content`, `thumbnail`. -/
structure Post where
  id : Nat
  feed_id : Nat
  url : String
  title : String
  description : Option String
  content : Option String
  publish_time : String
  thumbnail : Option String
  deriving DecidableEq, Repr

/-- A row of the `feeds` table (`src/entities/feeds.rs` / the first migration):
`id` (pk), `url` (unique), `title`, optional `icon` and `thumbnail`. -/
structure FeedRow where
  id : Nat
  url : String
  title : String
  icon : Option String
  thumbnail : Option String
  deriving DecidableEq, Repr

/-- A row of the `push_subscriptions` table
(`migration/src/m20250627_071849_push_subscriptions.rs`): auto-increment `id`,
unique `endpoint`, `auth_key`, `p256dh_key`. -/
structure PushSubscription where
  id : Nat
  endpoint : String
  auth_key : String
  p256dh_key : String
  deriving DecidableEq, Repr

/-- The relational store reached through sea-orm: the three tables plus a
counter supplying fresh post ids (standing in for `Uuid::new_v4`). -/
structure Store where
  feeds : List FeedRow
  posts : List Post
  subscriptions : List PushSubscription
  nextId : Nat
  deriving DecidableEq, Repr

/-- The storage errors the ingestion code distinguishes (`sea_orm::SqlErr`):
a unique-constraint violation is matched specially at `main.rs:456`; every
other error is the catch-all arm. -/
inductive SqlErr where
  | uniqueConstraintViolation
  | other (msg : String)
  deriving DecidableEq, Repr

/-- The urls of all stored posts (the dedup key set). -/
def postUrls (s : Store) : List String :=
  s.posts.map Post.url

/-- Model of `posts::ActiveModel::insert`: the migration declares `string_uniq("url")`,
so inserting a post whose `url` is already present fails with a
unique-constraint violation; otherwise the row is appended. -/
def insertPost (s : Store) (p : Post) : Except SqlErr Store :=
  if p.url ∈ postUrls s then .error .uniqueConstraintViolation
  else .ok { s with posts := s.posts ++ [p] }

/-- The thumbnail update at `main.rs:482-489`: an `ActiveModel` with
`id` unchanged and only `thumbnail` set, applied to the row with that id. -/
def updateThumbnail (s : Store) (postId : Nat) (thumb : Option String) : Store :=
  { s with
    posts := s.posts.map fun p =>
      if p.id = postId then { p with thumbnail := thumb } else p }

/-- Model of `PushSubscriptions::delete_by_id` (`main.rs:505`). -/
def deleteSubscription (s : Store) (subId : Nat) : Store :=
  { s with subscriptions := s.subscriptions.filter fun sub => sub.id ≠ subId }

/-- A link of an Atom entry, with the fields `run_sync_worker` reads
(`atom_syndication::Link`): `href`, `rel`, optional `mime_type`. -/
structure AtomLink where
  href : String
  rel : String
  mime_type : Option String
  deriving DecidableEq, Repr

/-- An Atom entry, restricted to the fields `run_sync_worker` reads:
`id`, `title.value`, optional `summary`, `content.and_then(|c| c.value)`
(hence `Option (Option String)`), optional `published`, `updated`, `links`. -/
structure AtomEntry where
  id : String
  title : String
  summary : Option String
  content : Option (Option String)
  published : Option String
  updated : String
  links : List AtomLink
  deriving DecidableEq, Repr

/-- An Atom feed document: its `title.value` and its entries. -/
structure AtomFeed where
  title : String
  entries : List AtomEntry
  deriving DecidableEq, Repr

/-- An RSS item, restricted to the fields `run_sync_worker` reads, plus the
`guid` field (present in the `rss` crate but never read by the worker). -/
structure RssItem where
  title : Option String
  link : Option String
  description : Option String
  pub_date : Option String
  guid : Option String
  deriving DecidableEq, Repr

/-- An RSS channel document: its `title` and its items. -/
structure RssChannel where
  title : String
  items : List RssItem
  deriving DecidableEq, Repr

/-- The tagged union produced by `fetch_feed` (`main.rs:640-643`). -/
inductive Feed where
  | atom (feed : AtomFeed)
  | rss (channel : RssChannel)
  deriving DecidableEq, Repr

/-- The `FeedParseError` type (`main.rs:645-650`): both underlying parser failures. -/
structure FeedParseError (εa εr : Type) where
  atom : εa
  rss : εr
  deriving DecidableEq, Repr

/-- The parse-fallback portion of `fetch_feed` (`main.rs:662-675`): try
`atom_syndication::Feed::read_from` first, fall back to
`rss::Channel::read_from`, and if both fail return a `FeedParseError`
carrying both failures.  The two library parsers are abstract parameters. -/
def fetchFeedParse {χ εa εr : Type}
    (atomRead : χ → Except εa AtomFeed) (rssRead : χ → Except εr RssChannel)
    (content : χ) : Except (FeedParseError εa εr) Feed :=
  match atomRead content with
  | .ok feed => .ok (.atom feed)
  | .error atom_error =>
    match rssRead content with
    | .ok channel => .ok (.rss channel)
    | .error rss_error => .error ⟨atom_error, rss_error⟩

/-- The first predicate of the link chain at `main.rs:423-426`:
`rel == "alternate" && mime_type.as_deref() == Some("text/html")`. -/
def isAltHtml (l : AtomLink) : Bool :=
  l.rel == "alternate" && l.mime_type == some "text/html"

/-- The second predicate of the link chain (`main.rs:427`):
`rel == "alternate"`. -/
def isAlt (l : AtomLink) : Bool :=
  l.rel == "alternate"

/-- The canonical-url resolution for an Atom entry (`main.rs:420-430`):
first `alternate`+`text/html` link, else first `alternate` link, else the
first link, else the entry's bare id. -/
def contentUrl (entry : AtomEntry) : String :=
  match entry.links.find? isAltHtml with
  | some l => l.href
  | none =>
    match entry.links.find? isAlt with
    | some l => l.href
    | none =>
      match entry.links.head? with
      | some l => l.href
      | none => entry.id

/-- The effectful collaborators of the worker, abstracted as pure functions:
* `stripHtml` — `Html::parse_fragment(..).root_element().text().join("")`;
* `extractOgImage` — the `meta[property="og:image"]` lookup on a fetched page
  (`main.rs:474-480`);
* `fetchPage` — `fetch_page_content` wrapped in the exponential-backoff retry
  (`main.rs:465-471`); `none` means every retry attempt failed;
* `fetchFeed` — `fetch_feed` (network fetch + parse); `none` means the fetch
  or the parse failed;
* `parseRfc2822` — `DateTime::parse_from_rfc2822(..).ok().map(to_rfc3339)`;
* `now` — `Local::now().to_rfc3339()` at sync time;
* `pushStatus` — the HTTP status returned by the push service for a delivery
  to the given subscription; `none` means a build/transport-level failure. -/
structure Env where
  stripHtml : String → String
  extractOgImage : String → Option String
  fetchPage : String → Option String
  fetchFeed : String → Option Feed
  parseRfc2822 : String → Option String
  now : String
  pushStatus : PushSubscription → Option Nat

/-- Model of `http::StatusCode::is_success`: the 2xx range.  Used only to state claims
about "success" versus "non-success" statuses. -/
def isSuccessStatus (status : Nat) : Bool :=
  200 ≤ status && status < 300

/-- Model of `PushClient::send_message` (`main.rs:150-172`), reduced to its
response classification: a build/transport failure (`none`) is an `Err`;
status 410 (`StatusCode::GONE`) returns `Ok(false)`; otherwise
`error_for_status` turns any client-error (4xx) or server-error (5xx) status
into an `Err`; every remaining status yields `Ok(true)`. -/
def sendMessage (response : Option Nat) : Except Unit Bool :=
  match response with
  | none => .error ()
  | some status =>
    if status = 410 then .ok false
    else if 400 ≤ status && status ≤ 599 then .error ()
    else .ok true

/-- The observable actions of one worker run, recorded in program order. -/
inductive Event where
  | inserted (url : String)
  | skippedDuplicate (url : String)
  | insertErrorLogged (url : String)
  | thumbnailUpdated (url : String)
  | rssItemSkippedNoLink
  | pushAttempt (url : String) (endpoint : String)
  | subscriptionDeleted (endpoint : String)
  | pushErrorLogged (endpoint : String)
  deriving DecidableEq, Repr

/-- The ways the worker task can panic: `fetch_feed(..).unwrap()` at
`main.rs:409`, and the `.unwrap()` on the retried page fetch at
`main.rs:472` / `main.rs:578`.  (The db `.unwrap()`s cannot fire in this
model, whose storage operations only fail on the unique constraint, which
the code handles.) -/
inductive Panic where
  | fetchFeedFailed (url : String)
  | pageFetchFailed (url : String)
  deriving DecidableEq, Repr

/-- The outcome of a (partial) worker run: the store as of the end (or as of
the panic), the events emitted so far, and the panic, if one occurred. -/
structure SyncResult where
  store : Store
  events : List Event
  panic : Option Panic
  deriving Repr

/-- Sequencing of worker steps: a panic aborts everything after it
(the panic unwinds the spawned task), otherwise the next step runs on the
resulting store and the event trace accumulates. -/
def SyncResult.andThen (r : SyncResult) (f : Store → SyncResult) : SyncResult :=
  match r.panic with
  | some _ => r
  | none =>
    let r2 := f r.store
    ⟨r2.store, r.events ++ r2.events, r2.panic⟩

/-- One push delivery and the caller's reaction to it (`main.rs:493-518`):
`Ok(false)` (a 410) deletes that subscription; `Err` logs and retains it;
`Ok(true)` just delivers. -/
def pushOutcome (env : Env) (post : Post) (sub : PushSubscription)
    (store : Store) : Store × List Event :=
  match sendMessage (env.pushStatus sub) with
  | .ok false =>
    (deleteSubscription store sub.id,
     [.pushAttempt post.url sub.endpoint, .subscriptionDeleted sub.endpoint])
  | .ok true => (store, [.pushAttempt post.url sub.endpoint])
  | .error _ =>
    (store, [.pushAttempt post.url sub.endpoint, .pushErrorLogged sub.endpoint])

/-- The notification fan-out for one inserted post (`main.rs:492-519`):
iterate over the snapshot of subscriptions fetched at notification time,
applying `pushOutcome` for each. -/
def notifyLoop (env : Env) (post : Post) :
    List PushSubscription → Store → Store × List Event
  | [], store => (store, [])
  | sub :: rest, store =>
    ((notifyLoop env post rest (pushOutcome env post sub store).1).1,
     (pushOutcome env post sub store).2 ++
       (notifyLoop env post rest (pushOutcome env post sub store).1).2)

/-- The post built from an Atom entry (`main.rs:433-449`). -/
def atomPost (env : Env) (feedId postId : Nat) (entry : AtomEntry) : Post :=
  { id := postId
    feed_id := feedId
    url := contentUrl entry
    title := entry.title
    description := entry.summary.map env.stripHtml
    content := entry.content.join
    publish_time := entry.published.getD entry.updated
    thumbnail := none }

/-- The post built from an RSS item with link `url` (`main.rs:536-555`). -/
def rssPost (env : Env) (feedId postId : Nat) (item : RssItem) (url : String) : Post :=
  { id := postId
    feed_id := feedId
    url := url
    title := item.title.getD "Untitled"
    description := item.description.map env.stripHtml
    content := none
    publish_time := (item.pub_date.bind env.parseRfc2822).getD env.now
    thumbnail := none }

/-- The insert / enrich / notify tail shared verbatim by the Atom and RSS
arms of `run_sync_worker` (`main.rs:453-520` and `main.rs:559-626`):
* insert; a unique-constraint violation (or any other insert error) is
  logged and the entry is skipped (`continue`);
* on success, fetch the page with retries — exhausting retries panics the
  task (`.unwrap()`), with the post already committed;
* extract the og:image and update the thumbnail;
* if the request asked for it, fan out notifications. -/
def ingestPost (env : Env) (notify : Bool) (post : Post) (store : Store) :
    SyncResult :=
  match insertPost store post with
  | .error .uniqueConstraintViolation =>
    ⟨store, [.skippedDuplicate post.url], none⟩
  | .error (.other _) => ⟨store, [.insertErrorLogged post.url], none⟩
  | .ok store1 =>
    match env.fetchPage post.url with
    | none => ⟨store1, [.inserted post.url], some (.pageFetchFailed post.url)⟩
    | some content =>
      let store2 := updateThumbnail store1 post.id (env.extractOgImage content)
      if notify then
        ⟨(notifyLoop env post store2.subscriptions store2).1,
         [.inserted post.url, .thumbnailUpdated post.url] ++
           (notifyLoop env post store2.subscriptions store2).2,
         none⟩
      else ⟨store2, [.inserted post.url, .thumbnailUpdated post.url], none⟩

/-- Processing of one Atom entry (`main.rs:413-521`): resolve the canonical
url, draw a fresh id, build the post, ingest. -/
def processAtomEntry (env : Env) (notify : Bool) (feedId : Nat)
    (entry : AtomEntry) (store : Store) : SyncResult :=
  let postId := store.nextId
  let store := { store with nextId := store.nextId + 1 }
  ingestPost env notify (atomPost env feedId postId entry) store

/-- Processing of one RSS item (`main.rs:524-627`): an item without a link
is logged and skipped (`continue`); otherwise build the post and ingest. -/
def processRssItem (env : Env) (notify : Bool) (feedId : Nat)
    (item : RssItem) (store : Store) : SyncResult :=
  match item.link with
  | none => ⟨store, [.rssItemSkippedNoLink], none⟩
  | some url =>
    let postId := store.nextId
    let store := { store with nextId := store.nextId + 1 }
    ingestPost env notify (rssPost env feedId postId item url) store

/-- The Atom entry loop, in document order. -/
def processEntries (env : Env) (notify : Bool) (feedId : Nat) :
    List AtomEntry → Store → SyncResult
  | [], store => ⟨store, [], none⟩
  | entry :: rest, store =>
    (processAtomEntry env notify feedId entry store).andThen
      (processEntries env notify feedId rest)

/-- The RSS item loop, in document order. -/
def processItems (env : Env) (notify : Bool) (feedId : Nat) :
    List RssItem → Store → SyncResult
  | [], store => ⟨store, [], none⟩
  | item :: rest, store =>
    (processRssItem env notify feedId item store).andThen
      (processItems env notify feedId rest)

/-- Syncing one feed (`main.rs:406-630`): `fetch_feed(..).unwrap()` panics
the task on a fetch or parse failure; otherwise dispatch on the format. -/
def processFeed (env : Env) (notify : Bool) (feedRow : FeedRow)
    (store : Store) : SyncResult :=
  match env.fetchFeed feedRow.url with
  | none => ⟨store, [], some (.fetchFeedFailed feedRow.url)⟩
  | some (.atom feed) => processEntries env notify feedRow.id feed.entries store
  | some (.rss channel) => processItems env notify feedRow.id channel.items store

/-- The feed loop of one sync request. -/
def processFeeds (env : Env) (notify : Bool) :
    List FeedRow → Store → SyncResult
  | [], store => ⟨store, [], none⟩
  | feedRow :: rest, store =>
    (processFeed env notify feedRow store).andThen
      (processFeeds env notify rest)

/-- The `SyncScope` type (`main.rs:384-387`). -/
inductive SyncScopeT where
  | all
  | feed (id : Nat)

/-- The `SyncRequest` type (`main.rs:379-382`). -/
structure SyncRequest where
  scope : SyncScopeT
  notify : Bool

/-- Scope resolution (`main.rs:396-404`): `All` is every feed row;
`Feed(id)` is that row if present, else the empty list. -/
def resolveScope (scope : SyncScopeT) (store : Store) : List FeedRow :=
  match scope with
  | .all => store.feeds
  | .feed id => (store.feeds.find? fun f => f.id == id).toList

/-- Processing one `SyncRequest` in the worker loop (`main.rs:395-631`). -/
def processSyncRequest (env : Env) (req : SyncRequest) (store : Store) :
    SyncResult :=
  processFeeds env req.notify (resolveScope req.scope store) store

/-- Model of `add_feed` (`main.rs:269-313`), reduced to its storage effect: fetch and
parse the feed (failure surfaces to the caller, nothing stored); take the
document's title; insert a fresh feed row with that title (unique `url`);
on success enqueue a `{scope: Feed(id), notify: false}` sync request. -/
def addFeed (env : Env) (store : Store) (newId : Nat) (url : String) :
    Except Unit (Store × FeedRow × SyncRequest) :=
  match env.fetchFeed url with
  | none => .error ()
  | some feed =>
    let title :=
      match feed with
      | .atom f => f.title
      | .rss channel => channel.title
    let row : FeedRow := ⟨newId, url, title, none, none⟩
    if url ∈ store.feeds.map FeedRow.url then .error ()
    else .ok ({ store with feeds := store.feeds ++ [row] }, row, ⟨.feed newId, false⟩)

/-- The per-url ordering property of an event trace: every push attempt for
a post url is preceded by the thumbnail update for that url (claim C9). -/
def notifyAfterThumb (evs : List Event) : Prop :=
  ∀ (i : Nat) (url ep : String), evs[i]? = some (.pushAttempt url ep) →
    ∃ j : Nat, j < i ∧ evs[j]? = some (.thumbnailUpdated url)

/-- Every entry of the document resolves to a url already present in the
store, so re-ingesting the document inserts nothing (claim C3). -/
def docCovered (doc : Feed) (store : Store) : Prop :=
  match doc with
  | .atom feed => ∀ entry ∈ feed.entries, contentUrl entry ∈ postUrls store
  | .rss channel =>
    ∀ item ∈ channel.items, ∀ url, item.link = some url → url ∈ postUrls store

/-- Re-syncing this feed row against this store fetches the same document
and finds every entry already stored (claim C3). -/
def feedReplayable (env : Env) (feedRow : FeedRow) (store : Store) : Prop :=
  ∃ doc, env.fetchFeed feedRow.url = some doc ∧ docCovered doc store

/-- A default environment for the concrete scenarios below: every feed url
is unknown, every page fetch succeeds with a page without an og:image, the
push service accepts everything. -/
def baseEnv : Env :=
  { stripHtml := id
    extractOgImage := fun _ => none
    fetchPage := fun _ => some "<html></html>"
    fetchFeed := fun _ => none
    parseRfc2822 := fun _ => none
    now := "NOW"
    pushStatus := fun _ => some 201 }

/-- C1 scenario: a feed with two entries whose first entry's page fetch
fails on every retry attempt. -/
def entryC1a : AtomEntry := ⟨"u1", "A", none, none, none, "T1", []⟩

/-- C1 scenario: the second entry, whose page fetch would succeed. -/
def entryC1b : AtomEntry := ⟨"u2", "B", none, none, none, "T2", []⟩

/-- C1 scenario environment. -/
def envC1 : Env :=
  { baseEnv with
    fetchFeed := fun u =>
      if u = "f" then some (.atom ⟨"F", [entryC1a, entryC1b]⟩) else none
    fetchPage := fun u => if u = "u1" then none else some "<html></html>" }

/-- C1 scenario store: one feed, no posts. -/
def storeC1 : Store := ⟨[⟨1, "f", "F", none, none⟩], [], [], 10⟩

/-- C2 scenario: the only entry of the second feed. -/
def entryC2 : AtomEntry := ⟨"u", "T", none, none, none, "T0", []⟩

/-- C2 scenario environment: fetching the first feed fails, the second
would succeed. -/
def envC2 : Env :=
  { baseEnv with
    fetchFeed := fun u =>
      if u = "f2" then some (.atom ⟨"F2", [entryC2]⟩) else none }

/-- C2 scenario store: two feeds, the first of which will fail to fetch. -/
def storeC2 : Store :=
  ⟨[⟨1, "f1", "A", none, none⟩, ⟨2, "f2", "B", none, none⟩], [], [], 0⟩

/-- C3 witness scenario: a one-entry Atom document. -/
def entryC3 : AtomEntry := ⟨"p1", "Hello", none, none, none, "T0", []⟩

/-- C3 witness environment. -/
def envC3 : Env :=
  { baseEnv with
    fetchFeed := fun u =>
      if u = "f" then some (.atom ⟨"T", [entryC3]⟩) else none }

/-- C3 witness store. -/
def storeC3 : Store := ⟨[⟨1, "f", "T", none, none⟩], [], [], 0⟩

/-- C4 witness subscription. -/
def subC4 : PushSubscription := ⟨1, "https://push/ep", "auth", "p256dh"⟩

/-- C4 witness store holding exactly that subscription. -/
def storeC4 : Store := ⟨[], [], [subC4], 0⟩

/-- C4 witness environment: the push service answers 410 Gone. -/
def envC4 : Env := { baseEnv with pushStatus := fun _ => some 410 }

/-- C4 witness post being announced. -/
def postC4 : Post := ⟨7, 1, "u", "t", none, none, "T0", none⟩

/-- C5 witness: a toy Atom parser over `Nat` "documents". -/
def atomReadW : Nat → Except String AtomFeed := fun n =>
  if n = 0 then .ok ⟨"A", []⟩ else .error "bad atom"

/-- C5 witness: a toy RSS parser over `Nat` "documents". -/
def rssReadW : Nat → Except String RssChannel := fun n =>
  if n ≤ 1 then .ok ⟨"R", []⟩ else .error "bad rss"

/-- C6 witness: a plain `alternate` link. -/
def linkPlainAlt : AtomLink := ⟨"https://plain", "alternate", none⟩

/-- C6 witness: an `alternate` link with media type `text/html`. -/
def linkHtmlAlt : AtomLink := ⟨"https://html", "alternate", some "text/html"⟩

/-- C6 witness entry: the plain `alternate` link comes first, the
`alternate`+html link second. -/
def entryC6 : AtomEntry :=
  ⟨"e-id", "t", none, none, none, "T0", [linkPlainAlt, linkHtmlAlt]⟩

/-- C7 witness environment: recognizes exactly one RFC 2822 date string. -/
def envC7 : Env :=
  { baseEnv with
    parseRfc2822 := fun s =>
      if s = "Mon, 01 Jan 2024 00:00:00 +0000" then
        some "2024-01-01T00:00:00+00:00"
      else none }

/-- C7 witness RSS item carrying a parsable date. -/
def itemC7 : RssItem :=
  ⟨some "t", some "u", none, some "Mon, 01 Jan 2024 00:00:00 +0000", none⟩

/-- C8 scenario entry, from the spec's test scenario. -/
def entryC8 : AtomEntry :=
  ⟨"p1", "Hello", none, none, none, "2024-01-01T00:00:00Z", []⟩

/-- C8 scenario environment: the registered url serves a one-entry Atom
document titled "Feed Title". -/
def envC8 : Env :=
  { baseEnv with
    fetchFeed := fun u =>
      if u = "https://e.g/feed.xml" then
        some (.atom ⟨"Feed Title", [entryC8]⟩)
      else none }

/-- C8 scenario store: the feed registered with an empty title. -/
def storeC8 : Store := ⟨[⟨1, "https://e.g/feed.xml", "", none, none⟩], [], [], 0⟩

/-- C8 scenario: the worker's single-feed sync of the registered feed. -/
def syncC8 : SyncResult := processSyncRequest envC8 ⟨.feed 1, false⟩ storeC8

/-- C10 witness item: no link, but a guid and a title. -/
def itemC10 : RssItem := ⟨some "T", none, none, none, some "guid-1"⟩

/-- C10 witness store. -/
def storeC10 : Store := ⟨[⟨1, "f", "T", none, none⟩], [], [], 5⟩

/-- Claim C5: the feed parser attempts Atom first; on Atom failure it
attempts RSS; bytes that parse as RSS but not Atom yield the RSS
representation; if both parsers fail, the result is a ParseError carrying
both underlying failures, and no other fallback is attempted (the three
cases are exhaustive). -/
theorem c5_parse_fallback {χ εa εr : Type}
    (atomRead : χ → Except εa AtomFeed) (rssRead : χ → Except εr RssChannel)
    (content : χ) :
    (∀ feed, atomRead content = .ok feed →
      fetchFeedParse atomRead rssRead content = .ok (.atom feed)) ∧
    (∀ atom_error channel, atomRead content = .error atom_error →
      rssRead content = .ok channel →
      fetchFeedParse atomRead rssRead content = .ok (.rss channel)) ∧
    (∀ atom_error rss_error, atomRead content = .error atom_error →
      rssRead content = .error rss_error →
      fetchFeedParse atomRead rssRead content = .error ⟨atom_error, rss_error⟩) := by
  refine ⟨?_, ?_, ?_⟩ <;> intros <;> simp [fetchFeedParse, *]

/-- Witness for C5: the three legs of the fallback at concrete toy parsers
and documents `0` (valid Atom), `1` (valid RSS only), `2` (invalid in
both). -/
theorem c5_witness :
    fetchFeedParse atomReadW rssReadW 0 = .ok (.atom ⟨"A", []⟩) ∧
    fetchFeedParse atomReadW rssReadW 1 = .ok (.rss ⟨"R", []⟩) ∧
    fetchFeedParse atomReadW rssReadW 2 = .error ⟨"bad atom", "bad rss"⟩ :=
  ⟨(c5_parse_fallback atomReadW rssReadW 0).1 _ rfl,
   (c5_parse_fallback atomReadW rssReadW 1).2.1 _ _ rfl rfl,
   (c5_parse_fallback atomReadW rssReadW 2).2.2 _ _ rfl rfl⟩

/-- Claim C7: the stored publish time is the Atom entry's `published` if
present, else its `updated`; for RSS it is the parsed `pub_date` if present
and parsable, else the current local time at sync. -/
theorem c7_publish_time_resolution :
    (∀ (env : Env) (feedId postId : Nat) (entry : AtomEntry) (t : String),
      entry.published = some t →
      (atomPost env feedId postId entry).publish_time = t) ∧
    (∀ (env : Env) (feedId postId : Nat) (entry : AtomEntry),
      entry.published = none →
      (atomPost env feedId postId entry).publish_time = entry.updated) ∧
    (∀ (env : Env) (feedId postId : Nat) (item : RssItem) (url s t : String),
      item.pub_date = some s → env.parseRfc2822 s = some t →
      (rssPost env feedId postId item url).publish_time = t) ∧
    (∀ (env : Env) (feedId postId : Nat) (item : RssItem) (url s : String),
      item.pub_date = some s → env.parseRfc2822 s = none →
      (rssPost env feedId postId item url).publish_time = env.now) ∧
    (∀ (env : Env) (feedId postId : Nat) (item : RssItem) (url : String),
      item.pub_date = none →
      (rssPost env feedId postId item url).publish_time = env.now) := by
  refine ⟨?_, ?_, ?_, ?_, ?_⟩ <;> intros <;> simp [atomPost, rssPost, *]

/-- Witness for C7: a parsable RFC 2822 date is converted, an unparsable
one falls back to the sync-time clock, and an Atom entry without
`published` uses `updated`. -/
theorem c7_witness :
    (rssPost envC7 1 2 itemC7 "u").publish_time = "2024-01-01T00:00:00+00:00" ∧
    (rssPost envC7 1 2 { itemC7 with pub_date := some "garbage" } "u").publish_time
      = "NOW" ∧
    (atomPost envC7 1 2 entryC3).publish_time = "T0" :=
  ⟨c7_publish_time_resolution.2.2.1 envC7 1 2 itemC7 "u"
      "Mon, 01 Jan 2024 00:00:00 +0000" "2024-01-01T00:00:00+00:00" rfl rfl,
   c7_publish_time_resolution.2.2.2.1 envC7 1 2
      { itemC7 with pub_date := some "garbage" } "u" "garbage" rfl rfl,
   c7_publish_time_resolution.2.1 envC7 1 2 entryC3 rfl⟩

/-- List.find? returns the element at the first index whose predicate holds. -/
theorem find?_eq_of_first {α : Type} (p : α → Bool) :
    ∀ (l : List α) (i : Fin l.length), p (l.get i) = true →
      (∀ j : Fin l.length, (j : Nat) < (i : Nat) → p (l.get j) = false) →
      l.find? p = some (l.get i)
  | a :: l, ⟨0, _⟩, hp, _ => by
    simpa using List.find?_cons_of_pos l hp
  | a :: l, ⟨i + 1, hi⟩, hp, hmin => by
    have ha : p a = false := hmin ⟨0, Nat.succ_pos _⟩ (Nat.succ_pos _)
    have ha2 : ¬ p a := by simp [ha]
    have hrec := find?_eq_of_first p l ⟨i, Nat.lt_of_succ_lt_succ hi⟩ hp
      (fun j hj => hmin ⟨(j : Nat) + 1, Nat.succ_lt_succ j.isLt⟩
        (Nat.succ_lt_succ hj))
    rw [List.find?_cons_of_neg _ ha2]
    exact hrec

/-- An `alternate`+`text/html` link is in particular an `alternate` link. -/
theorem isAlt_of_isAltHtml {l : AtomLink} (h : isAltHtml l = true) :
    isAlt l = true := by
  have := (Bool.and_eq_true _ _).mp h
  exact this.1

/-- Claim C6: the canonical post url of an Atom entry is resolved in exactly
this priority order: the first `alternate` link with media type `text/html`;
else the first `alternate` link; else the first link; else the entry's bare
id. -/
theorem c6_link_priority (entry : AtomEntry) :
    (∀ i : Fin entry.links.length, isAltHtml (entry.links.get i) = true →
      (∀ j : Fin entry.links.length, (j : Nat) < (i : Nat) →
        isAltHtml (entry.links.get j) = false) →
      contentUrl entry = (entry.links.get i).href) ∧
    ((∀ l ∈ entry.links, isAltHtml l = false) →
      ∀ i : Fin entry.links.length, isAlt (entry.links.get i) = true →
      (∀ j : Fin entry.links.length, (j : Nat) < (i : Nat) →
        isAlt (entry.links.get j) = false) →
      contentUrl entry = (entry.links.get i).href) ∧
    ((∀ l ∈ entry.links, isAlt l = false) →
      ∀ l, entry.links.head? = some l → contentUrl entry = l.href) ∧
    (entry.links = [] → contentUrl entry = entry.id) := by
  refine ⟨?_, ?_, ?_, ?_⟩
  · intro i hp hmin
    have h := find?_eq_of_first isAltHtml entry.links i hp hmin
    simp [contentUrl, h]
  · intro hall i hp hmin
    have h1 : entry.links.find? isAltHtml = none :=
      List.find?_eq_none.mpr fun l hl => by simp [hall l hl]
    have h2 := find?_eq_of_first isAlt entry.links i hp hmin
    simp [contentUrl, h1, h2]
  · intro hall l hl
    have hallHtml : ∀ l ∈ entry.links, isAltHtml l = false := fun l hml => by
      cases hAH : isAltHtml l with
      | false => rfl
      | true => rw [← hall l hml]; exact (isAlt_of_isAltHtml hAH).symm
    have h1 : entry.links.find? isAltHtml = none :=
      List.find?_eq_none.mpr fun l hml => by simp [hallHtml l hml]
    have h2 : entry.links.find? isAlt = none :=
      List.find?_eq_none.mpr fun l hml => by simp [hall l hml]
    simp [contentUrl, h1, h2, hl]
  · intro h
    simp [contentUrl, h]

/-- Witness for C6: an entry with a plain `alternate` link first and an
`alternate`+html link second resolves to the html link's href. -/
theorem c6_witness : contentUrl entryC6 = "https://html" :=
  (c6_link_priority entryC6).1 ⟨1, by decide⟩ (by decide) (by decide)

/-- Claim C4 counterexample: HTTP 304 is not a success status, yet
`send_message` classifies it as delivered (`Ok(true)`) rather than as a
delivery error, because `error_for_status` only rejects 4xx/5xx. -/
theorem c4_counterexample_304_delivered :
    isSuccessStatus 304 = false ∧
    sendMessage (some 304) = .ok true ∧
    sendMessage (some 304) ≠ .error () :=
  ⟨rfl, rfl, fun h => Except.noConfusion h⟩

/-- Claim C4 (amended): 410 is classified "subscription invalid" and the
caller deletes the subscription; any client-error or server-error status
(400-599) other than 410 is a delivery error that is logged while the
subscription is retained; every other status (all 2xx and 3xx in
particular) counts as delivered with the subscription retained. -/
theorem c4_push_classification_amended :
    (sendMessage (some 410) = .ok false) ∧
    (∀ status : Nat, 400 ≤ status → status ≤ 599 → status ≠ 410 →
      sendMessage (some status) = .error ()) ∧
    (∀ status : Nat, status < 400 ∨ 600 ≤ status →
      sendMessage (some status) = .ok true) ∧
    (∀ (env : Env) (post : Post) (store : Store) (sub : PushSubscription),
      store.subscriptions = [sub] →
      (env.pushStatus sub = some 410 →
        (notifyLoop env post store.subscriptions store).1.subscriptions = [] ∧
        (notifyLoop env post store.subscriptions store).2 =
          [.pushAttempt post.url sub.endpoint,
           .subscriptionDeleted sub.endpoint]) ∧
      (∀ status : Nat, env.pushStatus sub = some status →
        400 ≤ status → status ≤ 599 → status ≠ 410 →
        (notifyLoop env post store.subscriptions store).1.subscriptions = [sub] ∧
        (notifyLoop env post store.subscriptions store).2 =
          [.pushAttempt post.url sub.endpoint,
           .pushErrorLogged sub.endpoint]) ∧
      (∀ status : Nat, env.pushStatus sub = some status →
        isSuccessStatus status = true →
        (notifyLoop env post store.subscriptions store).1.subscriptions = [sub] ∧
        (notifyLoop env post store.subscriptions store).2 =
          [.pushAttempt post.url sub.endpoint])) := by
  have herr : ∀ status : Nat, 400 ≤ status → status ≤ 599 → status ≠ 410 →
      sendMessage (some status) = .error () := by
    intro s h1 h2 h3
    simp [sendMessage, h1, h2, h3]
  have hok : ∀ status : Nat, status < 400 ∨ 600 ≤ status →
      sendMessage (some status) = .ok true := by
    intro s h
    have h1 : s ≠ 410 := by omega
    have h2 : ¬ (400 ≤ s ∧ s ≤ 599) := by omega
    simp [sendMessage, h1, h2]
  refine ⟨rfl, herr, hok, ?_⟩
  intro env post store sub hs
  refine ⟨?_, ?_, ?_⟩
  · intro hp
    rw [hs]
    simp [notifyLoop, pushOutcome, hp, sendMessage, deleteSubscription, hs]
  · intro status hp h1 h2 h3
    rw [hs]
    simp [notifyLoop, pushOutcome, hp, herr status h1 h2 h3, hs]
  · intro status hp hsucc
    have hlt : status < 400 := by
      have := (Bool.and_eq_true _ _).mp hsucc
      have h2 := of_decide_eq_true this.2
      omega
    rw [hs]
    simp [notifyLoop, pushOutcome, hp, hok status (Or.inl hlt), hs]

/-- Witness for C4 (amended): status 500 is a delivery error; a 410 from the
push service leads the caller to delete the only subscription while
recording the attempt and the deletion. -/
theorem c4_witness :
    sendMessage (some 500) = .error () ∧
    (notifyLoop envC4 postC4 storeC4.subscriptions storeC4).1.subscriptions = [] :=
  ⟨c4_push_classification_amended.2.1 500 (by decide) (by decide) (by decide),
   ((c4_push_classification_amended.2.2.2 envC4 postC4 storeC4 subC4 rfl).1
      rfl).1⟩

/-- Claim C10: an RSS item without a link is skipped entirely — the store is
untouched (no post row, enrichment or notification for it, regardless of
its guid), the error is logged, and processing continues with the next
item. -/
theorem c10_rss_item_without_link_skipped :
    (∀ (env : Env) (notify : Bool) (feedId : Nat) (item : RssItem)
      (store : Store), item.link = none →
      processRssItem env notify feedId item store =
        ⟨store, [.rssItemSkippedNoLink], none⟩) ∧
    (∀ (env : Env) (notify : Bool) (feedId : Nat) (item : RssItem)
      (rest : List RssItem) (store : Store), item.link = none →
      (processItems env notify feedId (item :: rest) store).store =
        (processItems env notify feedId rest store).store ∧
      (processItems env notify feedId (item :: rest) store).events =
        .rssItemSkippedNoLink :: (processItems env notify feedId rest store).events ∧
      (processItems env notify feedId (item :: rest) store).panic =
        (processItems env notify feedId rest store).panic) := by
  have hskip : ∀ (env : Env) (notify : Bool) (feedId : Nat) (item : RssItem)
      (store : Store), item.link = none →
      processRssItem env notify feedId item store =
        ⟨store, [.rssItemSkippedNoLink], none⟩ := by
    intro env notify feedId item store h
    simp [processRssItem, h]
  refine ⟨hskip, ?_⟩
  intro env notify feedId item rest store h
  simp [processItems, hskip env notify feedId item store h, SyncResult.andThen]

/-- Witness for C10: at a concrete linkless item (with a guid), the store is
unchanged and only the skip is logged. -/
theorem c10_witness :
    processRssItem baseEnv true 1 itemC10 storeC10 =
      ⟨storeC10, [.rssItemSkippedNoLink], none⟩ :=
  c10_rss_item_without_link_skipped.1 baseEnv true 1 itemC10 storeC10 rfl

/-- Claim C1, evaluated at its failing input: with a two-entry feed whose
first entry's page fetch exhausts all retries, the first post is indeed
persisted without a thumbnail, but the `.unwrap()` on the retried fetch
panics the worker task, so the second entry is never processed — the worker
does not continue with the remaining entries and feeds. -/
theorem c1_retry_exhaustion_panics :
    (processSyncRequest envC1 ⟨.all, true⟩ storeC1).panic =
      some (.pageFetchFailed "u1") ∧
    (processSyncRequest envC1 ⟨.all, true⟩ storeC1).store.posts.map Post.url =
      ["u1"] ∧
    (processSyncRequest envC1 ⟨.all, true⟩ storeC1).store.posts.map
      Post.thumbnail = [none] := by
  refine ⟨?_, ?_, ?_⟩ <;> rfl

/-- Claim C2, evaluated at its failing input: with two feeds of which the
first fails to fetch, `fetch_feed(..).unwrap()` panics the worker task, so
the second feed — whose document holds one post — is never synced; the
failure is not logged-and-skipped. -/
theorem c2_feed_fetch_failure_panics :
    (processSyncRequest envC2 ⟨.all, true⟩ storeC2).panic =
      some (.fetchFeedFailed "f1") ∧
    (processSyncRequest envC2 ⟨.all, true⟩ storeC2).store.posts = [] := by
  refine ⟨?_, ?_⟩ <;> rfl

/-- Claim C8 counterexample: running the worker sync of the spec's scenario
persists the expected post, but leaves the feed row's title at its
registered value `""` — the worker never writes the fetched document's
title `"Feed Title"` back to the feed. -/
theorem c8_counterexample_feed_title_not_updated :
    syncC8.store.posts.map Post.url = ["p1"] ∧
    syncC8.store.feeds.map FeedRow.title = [""] ∧
    ("" : String) ≠ "Feed Title" := by
  refine ⟨rfl, rfl, by decide⟩

/-- Claim C8 (amended): the sync persists one Post
`{url: "p1", title: "Hello", publish_time: "2024-01-01T00:00:00Z"}` and
leaves the feed rows untouched — a feed's title is populated from the
initial fetch performed by `add_feed` at registration time (as the last
conjunct shows), never updated by the worker. -/
theorem c8_scenario_amended :
    syncC8.panic = none ∧
    syncC8.store.posts.map Post.url = ["p1"] ∧
    syncC8.store.posts.map Post.title = ["Hello"] ∧
    syncC8.store.posts.map Post.publish_time = ["2024-01-01T00:00:00Z"] ∧
    syncC8.store.feeds = storeC8.feeds ∧
    addFeed envC8 ⟨[], [], [], 0⟩ 7 "https://e.g/feed.xml" =
      .ok (⟨[⟨7, "https://e.g/feed.xml", "Feed Title", none, none⟩], [], [], 0⟩,
        ⟨7, "https://e.g/feed.xml", "Feed Title", none, none⟩,
        ⟨.feed 7, false⟩) := by
  refine ⟨rfl, rfl, rfl, rfl, rfl, rfl⟩

/-- The predicate `notifyAfterThumb` is closed under concatenation of self-contained
blocks. -/
theorem notifyAfterThumb_append {a b : List Event}
    (ha : notifyAfterThumb a) (hb : notifyAfterThumb b) :
    notifyAfterThumb (a ++ b) := by
  intro i url ep h
  by_cases hi : i < a.length
  · rw [List.getElem?_append_left hi] at h
    obtain ⟨j, hj, hjev⟩ := ha i url ep h
    exact ⟨j, hj, by rw [List.getElem?_append_left (lt_trans hj hi)]; exact hjev⟩
  · push_neg at hi
    rw [List.getElem?_append_right hi] at h
    obtain ⟨j, hj, hjev⟩ := hb (i - a.length) url ep h
    refine ⟨a.length + j, by omega, ?_⟩
    rw [List.getElem?_append_right (by omega)]
    simpa using hjev

/-- A trace without push attempts vacuously satisfies `notifyAfterThumb`. -/
theorem notifyAfterThumb_of_no_pushAttempt {evs : List Event}
    (h : ∀ url ep, Event.pushAttempt url ep ∉ evs) : notifyAfterThumb evs := by
  intro i url ep hi
  exact absurd (List.getElem?_mem hi) (h url ep)

/-- Every push attempt emitted by the fan-out for a post names that post's
url. -/
theorem notifyLoop_pushAttempt_url (env : Env) (post : Post) :
    ∀ (subs : List PushSubscription) (store : Store) (url ep : String),
      Event.pushAttempt url ep ∈ (notifyLoop env post subs store).2 →
      url = post.url := by
  intro subs
  induction subs with
  | nil =>
    intro store url ep h
    simp [notifyLoop] at h
  | cons sub rest ih =>
    intro store url ep h
    rw [notifyLoop] at h
    rcases List.mem_append.mp h with h | h
    · rw [pushOutcome] at h
      rcases hsend : sendMessage (env.pushStatus sub) with e | b
      · rw [hsend] at h
        simp only [List.mem_cons, List.not_mem_nil, or_false] at h
        rcases h with h | h
        · injection h with h1 h2
        · exact absurd h (by simp)
      · rw [hsend] at h
        cases b
        · simp only [List.mem_cons, List.not_mem_nil, or_false] at h
          rcases h with h | h
          · injection h with h1 h2
          · exact absurd h (by simp)
        · simp only [List.mem_cons, List.not_mem_nil, or_false] at h
          injection h with h1 h2
    · exact ih _ url ep h

/-- The per-entry event block of a successfully enriched post satisfies
`notifyAfterThumb`: the thumbnail update precedes every push attempt, and
all push attempts are for that post's url. -/
theorem block_notifyAfterThumb (u : String) (pushEvs : List Event)
    (h : ∀ url ep, Event.pushAttempt url ep ∈ pushEvs → url = u) :
    notifyAfterThumb (Event.inserted u :: Event.thumbnailUpdated u :: pushEvs) := by
  intro i url ep hi
  match i, hi with
  | 0, hi => simp at hi
  | 1, hi => simp at hi
  | (n + 2), hi =>
    have hn : pushEvs[n]? = some (.pushAttempt url ep) := by simpa using hi
    have hu := h url ep (List.getElem?_mem hn)
    exact ⟨1, by omega, by simp [hu]⟩

/-- The events of one ingestion satisfy `notifyAfterThumb`. -/
theorem ingestPost_notifyAfterThumb (env : Env) (notify : Bool) (post : Post)
    (store : Store) :
    notifyAfterThumb (ingestPost env notify post store).events := by
  rw [ingestPost]
  split
  · exact notifyAfterThumb_of_no_pushAttempt (by intro url ep h; simp at h)
  · exact notifyAfterThumb_of_no_pushAttempt (by intro url ep h; simp at h)
  · split
    · exact notifyAfterThumb_of_no_pushAttempt (by intro url ep h; simp at h)
    · split
      · exact block_notifyAfterThumb post.url _
          (fun url ep h => notifyLoop_pushAttempt_url env post _ _ url ep h)
      · exact block_notifyAfterThumb post.url []
          (by intro url ep h; simp at h)

/-- Sequencing with `andThen` preserves `notifyAfterThumb` of the accumulated trace. -/
theorem andThen_notifyAfterThumb {r : SyncResult} {f : Store → SyncResult}
    (hr : notifyAfterThumb r.events)
    (hf : ∀ store, notifyAfterThumb (f store).events) :
    notifyAfterThumb (r.andThen f).events := by
  rw [SyncResult.andThen]
  split
  · exact hr
  · exact notifyAfterThumb_append hr (hf r.store)

/-- Every Atom entry loop trace satisfies `notifyAfterThumb`. -/
theorem processEntries_notifyAfterThumb (env : Env) (notify : Bool)
    (feedId : Nat) :
    ∀ (entries : List AtomEntry) (store : Store),
      notifyAfterThumb (processEntries env notify feedId entries store).events := by
  intro entries
  induction entries with
  | nil =>
    intro store
    exact notifyAfterThumb_of_no_pushAttempt (by intro url ep h; simp [processEntries] at h)
  | cons entry rest ih =>
    intro store
    rw [processEntries]
    exact andThen_notifyAfterThumb
      (ingestPost_notifyAfterThumb env notify _ _) (fun s => ih s)

/-- Every RSS item loop trace satisfies `notifyAfterThumb`. -/
theorem processItems_notifyAfterThumb (env : Env) (notify : Bool)
    (feedId : Nat) :
    ∀ (items : List RssItem) (store : Store),
      notifyAfterThumb (processItems env notify feedId items store).events := by
  intro items
  induction items with
  | nil =>
    intro store
    exact notifyAfterThumb_of_no_pushAttempt (by intro url ep h; simp [processItems] at h)
  | cons item rest ih =>
    intro store
    rw [processItems]
    refine andThen_notifyAfterThumb ?_ (fun s => ih s)
    rw [processRssItem]
    split
    · exact notifyAfterThumb_of_no_pushAttempt (by intro url ep h; simp at h)
    · exact ingestPost_notifyAfterThumb env notify _ _

/-- Every single-feed sync trace satisfies `notifyAfterThumb`. -/
theorem processFeed_notifyAfterThumb (env : Env) (notify : Bool)
    (feedRow : FeedRow) (store : Store) :
    notifyAfterThumb (processFeed env notify feedRow store).events := by
  rw [processFeed]
  split
  · exact notifyAfterThumb_of_no_pushAttempt (by intro url ep h; simp at h)
  · exact processEntries_notifyAfterThumb env notify _ _ _
  · exact processItems_notifyAfterThumb env notify _ _ _

/-- Every feed-batch trace satisfies `notifyAfterThumb`. -/
theorem processFeeds_notifyAfterThumb (env : Env) (notify : Bool) :
    ∀ (feedRows : List FeedRow) (store : Store),
      notifyAfterThumb (processFeeds env notify feedRows store).events := by
  intro feedRows
  induction feedRows with
  | nil =>
    intro store
    exact notifyAfterThumb_of_no_pushAttempt (by intro url ep h; simp [processFeeds] at h)
  | cons feedRow rest ih =>
    intro store
    rw [processFeeds]
    exact andThen_notifyAfterThumb
      (processFeed_notifyAfterThumb env notify feedRow store) (fun s => ih s)

/-- Claim C9: within a single sync, for every newly inserted entry the
enrichment (page fetch, og:image extraction, thumbnail update) completes or
fails before that entry's notification fan-out begins: in the worker's
event trace, every push attempt for a post url is strictly preceded by the
thumbnail update for that url (and an entry whose enrichment fails panics
before any notification is dispatched). -/
theorem c9_enrich_before_notify (env : Env) (req : SyncRequest)
    (store : Store) :
    notifyAfterThumb (processSyncRequest env req store).events :=
  processFeeds_notifyAfterThumb env req.notify (resolveScope req.scope store) store

/-- An insert can only fail because the url is already stored. -/
theorem insertPost_error {store : Store} {p : Post} {e : SqlErr}
    (h : insertPost store p = .error e) : p.url ∈ postUrls store := by
  by_cases hm : p.url ∈ postUrls store
  · exact hm
  · simp [insertPost, hm] at h

/-- A successful insert appends exactly the new row. -/
theorem insertPost_ok {store : Store} {p : Post} {s1 : Store}
    (h : insertPost store p = .ok s1) :
    s1 = { store with posts := store.posts ++ [p] } := by
  by_cases hm : p.url ∈ postUrls store
  · simp [insertPost, hm] at h
  · simp only [insertPost, hm, if_neg, ite_false] at h
    exact (Except.ok.injEq _ _).mp h |>.symm

/-- The thumbnail update rewrites no url. -/
theorem postUrls_updateThumbnail (s : Store) (pid : Nat) (th : Option String) :
    postUrls (updateThumbnail s pid th) = postUrls s := by
  simp only [postUrls, updateThumbnail, List.map_map]
  apply List.map_congr_left
  intro p _
  by_cases h : p.id = pid <;> simp [h]

/-- The notification fan-out touches neither posts nor feeds. -/
theorem notifyLoop_store (env : Env) (post : Post) :
    ∀ (subs : List PushSubscription) (store : Store),
      (notifyLoop env post subs store).1.posts = store.posts ∧
      (notifyLoop env post subs store).1.feeds = store.feeds := by
  intro subs
  induction subs with
  | nil => intro store; exact ⟨rfl, rfl⟩
  | cons sub rest ih =>
    intro store
    rw [notifyLoop]
    have h1 : (pushOutcome env post sub store).1.posts = store.posts ∧
        (pushOutcome env post sub store).1.feeds = store.feeds := by
      rw [pushOutcome]
      split <;> exact ⟨rfl, rfl⟩
    obtain ⟨ha, hb⟩ := ih (pushOutcome env post sub store).1
    exact ⟨ha.trans h1.1, hb.trans h1.2⟩

/-- Enrichment followed by fan-out preserves the url set and the feeds. -/
theorem enrichStore_props (env : Env) (post : Post)
    (subs : List PushSubscription) (s : Store) (pid : Nat)
    (th : Option String) :
    postUrls (notifyLoop env post subs (updateThumbnail s pid th)).1 =
      postUrls s ∧
    (notifyLoop env post subs (updateThumbnail s pid th)).1.feeds = s.feeds := by
  obtain ⟨hp, hf⟩ := notifyLoop_store env post subs (updateThumbnail s pid th)
  constructor
  · rw [postUrls, hp]
    exact postUrls_updateThumbnail s pid th
  · exact hf

/-- One ingestion only appends posts, always leaves the ingested url
present, and never touches the feeds — whether it skips, succeeds, or
panics during enrichment. -/
theorem ingestPost_props (env : Env) (notify : Bool) (p : Post)
    (store : Store) :
    (∃ l, postUrls (ingestPost env notify p store).store = postUrls store ++ l) ∧
    p.url ∈ postUrls (ingestPost env notify p store).store ∧
    (ingestPost env notify p store).store.feeds = store.feeds := by
  cases hins : insertPost store p with
  | error e =>
    have hmem := insertPost_error hins
    have hred : (ingestPost env notify p store).store = store := by
      cases e <;> simp [ingestPost, hins]
    rw [hred]
    exact ⟨⟨[], by simp⟩, hmem, rfl⟩
  | ok s1 =>
    have hs1 := insertPost_ok hins
    subst hs1
    cases hpg : env.fetchPage p.url with
    | none =>
      have hred : (ingestPost env notify p store).store =
          { store with posts := store.posts ++ [p] } := by
        simp [ingestPost, hins, hpg]
      rw [hred]
      exact ⟨⟨[p.url], by simp [postUrls]⟩, by simp [postUrls], rfl⟩
    | some content =>
      cases hn : notify with
      | true =>
        have hred : (ingestPost env true p store).store =
            (notifyLoop env p
              (updateThumbnail { store with posts := store.posts ++ [p] } p.id
                (env.extractOgImage content)).subscriptions
              (updateThumbnail { store with posts := store.posts ++ [p] } p.id
                (env.extractOgImage content))).1 := by
          simp [ingestPost, hins, hpg]
        rw [hred]
        obtain ⟨hu, hf⟩ := enrichStore_props env p
          (updateThumbnail { store with posts := store.posts ++ [p] } p.id
            (env.extractOgImage content)).subscriptions
          { store with posts := store.posts ++ [p] } p.id
          (env.extractOgImage content)
        refine ⟨⟨[p.url], ?_⟩, ?_, hf⟩
        · rw [hu]; simp [postUrls]
        · rw [hu]; simp [postUrls]
      | false =>
        have hred : (ingestPost env false p store).store =
            updateThumbnail { store with posts := store.posts ++ [p] } p.id
              (env.extractOgImage content) := by
          simp [ingestPost, hins, hpg]
        rw [hred]
        refine ⟨⟨[p.url], ?_⟩, ?_, rfl⟩
        · rw [postUrls_updateThumbnail]; simp [postUrls]
        · rw [postUrls_updateThumbnail]; simp [postUrls]

/-- The function `processAtomEntry` inherits the `ingestPost` properties, with the
ingested url being the entry's canonical url. -/
theorem processAtomEntry_props (env : Env) (notify : Bool) (feedId : Nat)
    (entry : AtomEntry) (store : Store) :
    (∃ l, postUrls (processAtomEntry env notify feedId entry store).store =
        postUrls store ++ l) ∧
    contentUrl entry ∈
      postUrls (processAtomEntry env notify feedId entry store).store ∧
    (processAtomEntry env notify feedId entry store).store.feeds =
      store.feeds :=
  ingestPost_props env notify (atomPost env feedId store.nextId entry)
    { store with nextId := store.nextId + 1 }

/-- The function `processRssItem` inherits the `ingestPost` properties; a linkless item
leaves the store untouched. -/
theorem processRssItem_props (env : Env) (notify : Bool) (feedId : Nat)
    (item : RssItem) (store : Store) :
    (∃ l, postUrls (processRssItem env notify feedId item store).store =
        postUrls store ++ l) ∧
    (∀ url, item.link = some url →
      url ∈ postUrls (processRssItem env notify feedId item store).store) ∧
    (processRssItem env notify feedId item store).store.feeds = store.feeds := by
  cases hl : item.link with
  | none =>
    simp only [processRssItem, hl]
    exact ⟨⟨[], by simp⟩, by simp, trivial⟩
  | some url =>
    simp only [processRssItem, hl]
    obtain ⟨hpre, hmem, hfeeds⟩ := ingestPost_props env notify
      (rssPost env feedId store.nextId item url)
      { store with nextId := store.nextId + 1 }
    refine ⟨hpre, ?_, hfeeds⟩
    intro u hu
    injection hu with huv
    subst huv
    exact hmem

/-- Entry-loop invariants: the url set only grows, the feeds are untouched,
and a panic-free run leaves every entry's canonical url stored. -/
theorem processEntries_props (env : Env) (notify : Bool) (feedId : Nat) :
    ∀ (entries : List AtomEntry) (store : Store),
      (∃ l, postUrls (processEntries env notify feedId entries store).store =
          postUrls store ++ l) ∧
      (processEntries env notify feedId entries store).store.feeds =
        store.feeds ∧
      ((processEntries env notify feedId entries store).panic = none →
        ∀ e ∈ entries, contentUrl e ∈
          postUrls (processEntries env notify feedId entries store).store) := by
  intro entries
  induction entries with
  | nil =>
    intro store
    refine ⟨⟨[], by simp [processEntries]⟩, rfl, ?_⟩
    intro _ e he
    exact absurd he (List.not_mem_nil e)
  | cons entry rest ih =>
    intro store
    rw [processEntries, SyncResult.andThen]
    cases hp : (processAtomEntry env notify feedId entry store).panic with
    | some p =>
      obtain ⟨hpre, hcov, hfeed⟩ :=
        processAtomEntry_props env notify feedId entry store
      refine ⟨hpre, hfeed, ?_⟩
      intro hnone
      rw [hp] at hnone
      exact absurd hnone (by simp)
    | none =>
      obtain ⟨⟨l1, hpre1⟩, hcov1, hfeed1⟩ :=
        processAtomEntry_props env notify feedId entry store
      obtain ⟨⟨l2, hpre2⟩, hfeed2, hcov2⟩ :=
        ih (processAtomEntry env notify feedId entry store).store
      refine ⟨⟨l1 ++ l2, ?_⟩, hfeed2.trans hfeed1, ?_⟩
      · rw [hpre2, hpre1, List.append_assoc]
      · intro hnone e he
        rcases List.mem_cons.mp he with rfl | he2
        · rw [hpre2]
          exact List.mem_append_left _ hcov1
        · exact hcov2 hnone e he2

/-- Item-loop invariants, the RSS counterpart of `processEntries_props`. -/
theorem processItems_props (env : Env) (notify : Bool) (feedId : Nat) :
    ∀ (items : List RssItem) (store : Store),
      (∃ l, postUrls (processItems env notify feedId items store).store =
          postUrls store ++ l) ∧
      (processItems env notify feedId items store).store.feeds = store.feeds ∧
      ((processItems env notify feedId items store).panic = none →
        ∀ item ∈ items, ∀ url, item.link = some url →
          url ∈ postUrls (processItems env notify feedId items store).store) := by
  intro items
  induction items with
  | nil =>
    intro store
    refine ⟨⟨[], by simp [processItems]⟩, rfl, ?_⟩
    intro _ item hi
    exact absurd hi (List.not_mem_nil item)
  | cons item rest ih =>
    intro store
    rw [processItems, SyncResult.andThen]
    cases hp : (processRssItem env notify feedId item store).panic with
    | some p =>
      obtain ⟨hpre, hcov, hfeed⟩ :=
        processRssItem_props env notify feedId item store
      refine ⟨hpre, hfeed, ?_⟩
      intro hnone
      rw [hp] at hnone
      exact absurd hnone (by simp)
    | none =>
      obtain ⟨⟨l1, hpre1⟩, hcov1, hfeed1⟩ :=
        processRssItem_props env notify feedId item store
      obtain ⟨⟨l2, hpre2⟩, hfeed2, hcov2⟩ :=
        ih (processRssItem env notify feedId item store).store
      refine ⟨⟨l1 ++ l2, ?_⟩, hfeed2.trans hfeed1, ?_⟩
      · rw [hpre2, hpre1, List.append_assoc]
      · intro hnone i hi url hiu
        rcases List.mem_cons.mp hi with rfl | hi2
        · rw [hpre2]
          exact List.mem_append_left _ (hcov1 url hiu)
        · exact hcov2 hnone i hi2 url hiu

/-- A covered document stays covered when the url set only grows. -/
theorem docCovered_mono {doc : Feed} {s s2 : Store} (h : docCovered doc s)
    (hpre : ∃ l, postUrls s2 = postUrls s ++ l) : docCovered doc s2 := by
  obtain ⟨l, hl⟩ := hpre
  cases doc with
  | atom feed =>
    intro e he
    rw [hl]
    exact List.mem_append_left _ (h e he)
  | rss channel =>
    intro item hi url hu
    rw [hl]
    exact List.mem_append_left _ (h item hi url hu)

/-- Replayability transfers along growth of the url set. -/
theorem feedReplayable_mono {env : Env} {fr : FeedRow} {s s2 : Store}
    (h : feedReplayable env fr s)
    (hpre : ∃ l, postUrls s2 = postUrls s ++ l) : feedReplayable env fr s2 :=
  match h with
  | ⟨doc, hf, hc⟩ => ⟨doc, hf, docCovered_mono hc hpre⟩

/-- Replayability only depends on the stored posts. -/
theorem feedReplayable_of_posts_eq {env : Env} {fr : FeedRow} {s s2 : Store}
    (hp : s2.posts = s.posts) (h : feedReplayable env fr s) :
    feedReplayable env fr s2 := by
  obtain ⟨doc, hf, hcov⟩ := h
  refine ⟨doc, hf, ?_⟩
  have hu : postUrls s2 = postUrls s := by simp [postUrls, hp]
  cases doc with
  | atom feed =>
    intro e he
    rw [hu]
    exact hcov e he
  | rss channel =>
    intro i hi u hiu
    rw [hu]
    exact hcov i hi u hiu

/-- Single-feed invariants: the url set only grows, the feeds are
untouched, and a panic-free run leaves the feed replayable. -/
theorem processFeed_props (env : Env) (notify : Bool) (feedRow : FeedRow)
    (store : Store) :
    (∃ l, postUrls (processFeed env notify feedRow store).store =
        postUrls store ++ l) ∧
    (processFeed env notify feedRow store).store.feeds = store.feeds ∧
    ((processFeed env notify feedRow store).panic = none →
      feedReplayable env feedRow (processFeed env notify feedRow store).store) := by
  cases hf : env.fetchFeed feedRow.url with
  | none =>
    simp only [processFeed, hf]
    refine ⟨⟨[], by simp⟩, trivial, ?_⟩
    intro h
    exact absurd h (by simp)
  | some doc =>
    cases doc with
    | atom feed =>
      simp only [processFeed, hf]
      obtain ⟨hpre, hfeeds, hcov⟩ :=
        processEntries_props env notify feedRow.id feed.entries store
      exact ⟨hpre, hfeeds, fun hnone => ⟨.atom feed, hf, fun e he => hcov hnone e he⟩⟩
    | rss channel =>
      simp only [processFeed, hf]
      obtain ⟨hpre, hfeeds, hcov⟩ :=
        processItems_props env notify feedRow.id channel.items store
      exact ⟨hpre, hfeeds, fun hnone =>
        ⟨.rss channel, hf, fun i hi url hiu => hcov hnone i hi url hiu⟩⟩

/-- Feed-batch invariants: the url set only grows, the feeds are untouched,
and after a panic-free batch every processed feed is replayable against the
final store. -/
theorem processFeeds_props (env : Env) (notify : Bool) :
    ∀ (feedRows : List FeedRow) (store : Store),
      (∃ l, postUrls (processFeeds env notify feedRows store).store =
          postUrls store ++ l) ∧
      (processFeeds env notify feedRows store).store.feeds = store.feeds ∧
      ((processFeeds env notify feedRows store).panic = none →
        ∀ fr ∈ feedRows,
          feedReplayable env fr (processFeeds env notify feedRows store).store) := by
  intro feedRows
  induction feedRows with
  | nil =>
    intro store
    refine ⟨⟨[], by simp [processFeeds]⟩, rfl, ?_⟩
    intro _ fr hf
    exact absurd hf (List.not_mem_nil fr)
  | cons feedRow rest ih =>
    intro store
    rw [processFeeds, SyncResult.andThen]
    cases hp : (processFeed env notify feedRow store).panic with
    | some p =>
      obtain ⟨hpre, hfeed, hcov⟩ := processFeed_props env notify feedRow store
      refine ⟨hpre, hfeed, ?_⟩
      intro hnone
      rw [hp] at hnone
      exact absurd hnone (by simp)
    | none =>
      obtain ⟨⟨l1, hpre1⟩, hfeed1, hcov1⟩ :=
        processFeed_props env notify feedRow store
      obtain ⟨⟨l2, hpre2⟩, hfeed2, hcov2⟩ :=
        ih (processFeed env notify feedRow store).store
      refine ⟨⟨l1 ++ l2, ?_⟩, hfeed2.trans hfeed1, ?_⟩
      · rw [hpre2, hpre1, List.append_assoc]
      · intro hnone fr hf
        rcases List.mem_cons.mp hf with rfl | hf2
        · exact feedReplayable_mono (hcov1 hp) ⟨l2, hpre2⟩
        · exact hcov2 hnone fr hf2

/-- Ingesting a post whose url is already stored is a pure skip. -/
theorem ingestPost_skip (env : Env) (notify : Bool) (p : Post) (store : Store)
    (h : p.url ∈ postUrls store) :
    ingestPost env notify p store = ⟨store, [.skippedDuplicate p.url], none⟩ := by
  have hins : insertPost store p = .error .uniqueConstraintViolation := by
    simp [insertPost, h]
  simp [ingestPost, hins]

/-- An Atom entry whose canonical url is already stored is skipped, leaving
only the fresh-id counter bumped. -/
theorem processAtomEntry_skip (env : Env) (notify : Bool) (feedId : Nat)
    (entry : AtomEntry) (store : Store)
    (h : contentUrl entry ∈ postUrls store) :
    processAtomEntry env notify feedId entry store =
      ⟨{ store with nextId := store.nextId + 1 },
       [.skippedDuplicate (contentUrl entry)], none⟩ :=
  ingestPost_skip env notify (atomPost env feedId store.nextId entry)
    { store with nextId := store.nextId + 1 } h

/-- An entry loop over fully covered entries changes no posts and never
panics. -/
theorem processEntries_skip (env : Env) (notify : Bool) (feedId : Nat) :
    ∀ (entries : List AtomEntry) (store : Store),
      (∀ e ∈ entries, contentUrl e ∈ postUrls store) →
      (processEntries env notify feedId entries store).store.posts =
        store.posts ∧
      (processEntries env notify feedId entries store).panic = none := by
  intro entries
  induction entries with
  | nil => intro store _; exact ⟨rfl, rfl⟩
  | cons entry rest ih =>
    intro store h
    have hskip := processAtomEntry_skip env notify feedId entry store
      (h entry (by simp))
    rw [processEntries, hskip, SyncResult.andThen]
    exact ih { store with nextId := store.nextId + 1 }
      (fun e he => h e (List.mem_cons_of_mem entry he))

/-- An item loop over fully covered items changes no posts and never
panics. -/
theorem processItems_skip (env : Env) (notify : Bool) (feedId : Nat) :
    ∀ (items : List RssItem) (store : Store),
      (∀ item ∈ items, ∀ url, item.link = some url → url ∈ postUrls store) →
      (processItems env notify feedId items store).store.posts = store.posts ∧
      (processItems env notify feedId items store).panic = none := by
  intro items
  induction items with
  | nil => intro store _; exact ⟨rfl, rfl⟩
  | cons item rest ih =>
    intro items_store h
    cases hl : item.link with
    | none =>
      have hskip : processRssItem env notify feedId item items_store =
          ⟨items_store, [.rssItemSkippedNoLink], none⟩ := by
        simp [processRssItem, hl]
      rw [processItems, hskip, SyncResult.andThen]
      exact ih items_store (fun i hi => h i (List.mem_cons_of_mem item hi))
    | some url =>
      have hu := h item (by simp) url hl
      have hskip : processRssItem env notify feedId item items_store =
          ⟨{ items_store with nextId := items_store.nextId + 1 },
           [.skippedDuplicate url], none⟩ := by
        simp only [processRssItem, hl]
        exact ingestPost_skip env notify
          (rssPost env feedId items_store.nextId item url)
          { items_store with nextId := items_store.nextId + 1 } hu
      rw [processItems, hskip, SyncResult.andThen]
      exact ih { items_store with nextId := items_store.nextId + 1 }
        (fun i hi u hiu => h i (List.mem_cons_of_mem item hi) u hiu)

/-- A replayable feed syncs to the same posts without panicking. -/
theorem processFeed_skip (env : Env) (notify : Bool) (feedRow : FeedRow)
    (store : Store) (h : feedReplayable env feedRow store) :
    (processFeed env notify feedRow store).store.posts = store.posts ∧
    (processFeed env notify feedRow store).panic = none := by
  obtain ⟨doc, hf, hcov⟩ := h
  cases doc with
  | atom feed =>
    simp only [processFeed, hf]
    exact processEntries_skip env notify feedRow.id feed.entries store hcov
  | rss channel =>
    simp only [processFeed, hf]
    exact processItems_skip env notify feedRow.id channel.items store hcov

/-- A batch of replayable feeds syncs to the same posts without
panicking. -/
theorem processFeeds_skip (env : Env) (notify : Bool) :
    ∀ (feedRows : List FeedRow) (store : Store),
      (∀ fr ∈ feedRows, feedReplayable env fr store) →
      (processFeeds env notify feedRows store).store.posts = store.posts ∧
      (processFeeds env notify feedRows store).panic = none := by
  intro feedRows
  induction feedRows with
  | nil => intro store _; exact ⟨rfl, rfl⟩
  | cons feedRow rest ih =>
    intro store h
    obtain ⟨hposts1, hpanic1⟩ :=
      processFeed_skip env notify feedRow store (h feedRow (by simp))
    rw [processFeeds, SyncResult.andThen, hpanic1]
    obtain ⟨hposts2, hpanic2⟩ := ih (processFeed env notify feedRow store).store
      (fun f hf => feedReplayable_of_posts_eq hposts1
        (h f (List.mem_cons_of_mem feedRow hf)))
    exact ⟨hposts2.trans hposts1, hpanic2⟩

/-- Scope resolution only reads the feeds table. -/
theorem resolveScope_congr {s1 s2 : Store} (h : s1.feeds = s2.feeds)
    (scope : SyncScopeT) : resolveScope scope s1 = resolveScope scope s2 := by
  cases scope <;> simp [resolveScope, h]

/-- A panic-free sync replayed on its own result adds no posts and cannot
panic. -/
theorem processFeeds_resync (env : Env) (notify : Bool) (scope : SyncScopeT)
    (store : Store)
    (hnone :
      (processFeeds env notify (resolveScope scope store) store).panic = none) :
    (processFeeds env notify
        (resolveScope scope
          (processFeeds env notify (resolveScope scope store) store).store)
        (processFeeds env notify (resolveScope scope store) store).store).store.posts =
      (processFeeds env notify (resolveScope scope store) store).store.posts ∧
    (processFeeds env notify
        (resolveScope scope
          (processFeeds env notify (resolveScope scope store) store).store)
        (processFeeds env notify (resolveScope scope store) store).store).panic =
      none := by
  obtain ⟨hpre, hfeeds, hcov⟩ :=
    processFeeds_props env notify (resolveScope scope store) store
  rw [resolveScope_congr hfeeds scope]
  exact processFeeds_skip env notify (resolveScope scope store) _ (hcov hnone)

/-- Claim C3: ingesting an entry whose url already exists in storage is a
no-op for that entry — no post row is added or updated, no enrichment, no
notification, no panic, only a debug log — and consequently re-running the
same sync on its own result inserts zero new Post rows. -/
theorem c3_duplicate_url_noop :
    (∀ (env : Env) (notify : Bool) (feedId : Nat) (entry : AtomEntry)
      (store : Store), contentUrl entry ∈ postUrls store →
      (processAtomEntry env notify feedId entry store).store.posts =
        store.posts ∧
      (processAtomEntry env notify feedId entry store).store.subscriptions =
        store.subscriptions ∧
      (processAtomEntry env notify feedId entry store).events =
        [.skippedDuplicate (contentUrl entry)] ∧
      (processAtomEntry env notify feedId entry store).panic = none) ∧
    (∀ (env : Env) (notify : Bool) (feedId : Nat) (item : RssItem)
      (url : String) (store : Store), item.link = some url →
      url ∈ postUrls store →
      (processRssItem env notify feedId item store).store.posts = store.posts ∧
      (processRssItem env notify feedId item store).store.subscriptions =
        store.subscriptions ∧
      (processRssItem env notify feedId item store).events =
        [.skippedDuplicate url] ∧
      (processRssItem env notify feedId item store).panic = none) ∧
    (∀ (env : Env) (req : SyncRequest) (store : Store),
      (processSyncRequest env req store).panic = none →
      (processSyncRequest env req
          (processSyncRequest env req store).store).store.posts =
        (processSyncRequest env req store).store.posts ∧
      (processSyncRequest env req
          (processSyncRequest env req store).store).panic = none) := by
  refine ⟨?_, ?_, ?_⟩
  · intro env notify feedId entry store h
    rw [processAtomEntry_skip env notify feedId entry store h]
    exact ⟨rfl, rfl, rfl, rfl⟩
  · intro env notify feedId item url store hl h
    have hskip : processRssItem env notify feedId item store =
        ⟨{ store with nextId := store.nextId + 1 },
         [.skippedDuplicate url], none⟩ := by
      simp only [processRssItem, hl]
      exact ingestPost_skip env notify (rssPost env feedId store.nextId item url)
        { store with nextId := store.nextId + 1 } h
    rw [hskip]
    exact ⟨rfl, rfl, rfl, rfl⟩
  · intro env req store hnone
    exact processFeeds_resync env req.notify req.scope store hnone

/-- Witness for C3: a concrete feed whose one-entry document syncs cleanly;
re-running the same sync on the result adds no posts, and re-processing the
entry against the filled store is a pure skip. -/
theorem c3_witness :
    (processSyncRequest envC3 ⟨.all, true⟩
        (processSyncRequest envC3 ⟨.all, true⟩ storeC3).store).store.posts =
      (processSyncRequest envC3 ⟨.all, true⟩ storeC3).store.posts ∧
    (processAtomEntry envC3 true 1 entryC3
        (processSyncRequest envC3 ⟨.all, true⟩ storeC3).store).store.posts =
      (processSyncRequest envC3 ⟨.all, true⟩ storeC3).store.posts :=
  ⟨(c3_duplicate_url_noop.2.2 envC3 ⟨.all, true⟩ storeC3 rfl).1,
   (c3_duplicate_url_noop.1 envC3 true 1 entryC3
      (processSyncRequest envC3 ⟨.all, true⟩ storeC3).store (by decide)).1⟩

end Tress
